import Mathlib

/-!
Verification of the regional join/aggregation core of the `dashboard-jabar`
public-health dashboard (React pages fetching CSV and GeoJSON, cleaning rows,
grouping sums by region and year, and joining onto polygon features).

Strings are embedded as `List Char`; JavaScript `undefined`/`null` is embedded
as `Option`; JavaScript numbers appearing in the pipeline are embedded as
`Int` (values produced by `parseInt`) and `ℚ` (values flowing through the
d3 color scale and the life-expectancy average), with `Option` marking the
places where a JavaScript `NaN` can arise.

Each definition carries a comment naming the source file and lines it
translates.
-/

namespace Dashboard

/-- The whitespace test used by the embedding of JavaScript `trim`.
JavaScript trims the Unicode whitespace class; the inputs flowing through
these pages only ever carry ASCII whitespace, embedded here exactly as
Lean core's `Char.isWhitespace` set (space, tab, CR, LF). -/
def isWS (c : Char) : Bool :=
  c == ' ' || c == '\t' || c == '\r' || c == '\n'

/-- Embedding of JavaScript `String.prototype.toLowerCase` on the ASCII
letters (the only case-carrying characters in the data). -/
def lowChar (c : Char) : Char :=
  if 65 ≤ c.toNat ∧ c.toNat ≤ 90 then Char.ofNat (c.toNat + 32) else c

/-- Embedding of JavaScript `String.prototype.toUpperCase` on the ASCII
letters (the only case-carrying characters in the data). -/
def upChar (c : Char) : Char :=
  if 97 ≤ c.toNat ∧ c.toNat ≤ 122 then Char.ofNat (c.toNat - 32) else c

/-- `toLowerCase` lifted to strings-as-lists. -/
def lowerL (l : List Char) : List Char := l.map lowChar

/-- `toUpperCase` lifted to strings-as-lists. -/
def upperL (l : List Char) : List Char := l.map upChar

/-- Embedding of JavaScript `String.prototype.trim`: drop whitespace from
both ends (right end via `List.rdropWhile`, left end via `List.dropWhile`). -/
def trimL (l : List Char) : List Char :=
  (l.rdropWhile isWS).dropWhile isWS

/-- Case-insensitive character match used by the `gi` regexp flag:
two characters match when they agree after `toLowerCase`. -/
def eqCI (a b : Char) : Bool := lowChar a == lowChar b

/-- Does `pat` match case-insensitively at the very front of `l`? -/
def ciStarts : List Char → List Char → Bool
  | [], _ => true
  | _ :: _, [] => false
  | p :: ps, c :: cs => eqCI p c && ciStarts ps cs

/-- The literal token of the regexp `/KABUPATEN /gi` in
`src/dashboard-jabar/src/pages/MaternalMortalityChoropleth.jsx` line 94:
the word `KABUPATEN` followed by one space. -/
def kabPat : List Char :=
  ['K', 'A', 'B', 'U', 'P', 'A', 'T', 'E', 'N', ' ']

/-- Fuel-indexed worker for `stripKab`.  The fuel bounds the length of the
remaining input so the recursion is structural and kernel-evaluable. -/
def stripKabGo : Nat → List Char → List Char
  | 0, l => l
  | _ + 1, [] => []
  | n + 1, c :: cs =>
    if ciStarts kabPat (c :: cs) then stripKabGo n ((c :: cs).drop kabPat.length)
    else c :: stripKabGo n cs

/-- Embedding of `s.replace(/KABUPATEN /gi, "")`
(MaternalMortalityChoropleth.jsx line 94): scan left to right; on a
case-insensitive match of `"KABUPATEN "` delete it and continue scanning
*after* the deleted stretch (the JavaScript engine never rescans text it
has already passed), otherwise keep the character and move on. -/
def stripKab (l : List Char) : List Char := stripKabGo l.length l

/-- Is there a case-insensitive occurrence of `pat` anywhere in `l`? -/
def hasTokCI (pat l : List Char) : Bool :=
  l.tails.any (fun t => ciStarts pat t)

/-- Embedding of the tabular-side key normalization of
MaternalMortalityChoropleth.jsx lines 93-96 combined with the truthiness
filter of line 105: `row.nama_kabupaten_kota?.replace(/KABUPATEN /gi,
"")?.trim().toUpperCase()`, where a missing input propagates `undefined`
through the optional chain and an empty result is rejected as falsy by
`.filter((r) => ... r.nama_kabupaten_kota ...)`. -/
def normalizeKey (o : Option (List Char)) : Option (List Char) :=
  match o with
  | none => none
  | some s =>
    if upperL (trimL (stripKab s)) = [] then none
    else some (upperL (trimL (stripKab s)))

example : stripKab ("KABUPATEN BANDUNG".toList) = "BANDUNG".toList := by decide
example : normalizeKey (some ("KOTA BANDUNG".toList))
    = some ("KOTA BANDUNG".toList) := by decide
example : normalizeKey (some ("  kabupaten Bogor ".toList))
    = some ("BOGOR".toList) := by decide
example : normalizeKey (some ("   ".toList)) = none := by decide

/-! ## Numeric parsing (JavaScript `parseInt`) -/

/-- ASCII decimal digit test, as in the JavaScript number grammar. -/
def isDig (c : Char) : Bool := 48 ≤ c.toNat && c.toNat ≤ 57

/-- ASCII hexadecimal digit test. -/
def isHexDig (c : Char) : Bool :=
  (48 ≤ c.toNat && c.toNat ≤ 57) || (97 ≤ c.toNat && c.toNat ≤ 102) ||
    (65 ≤ c.toNat && c.toNat ≤ 70)

/-- Numeric value of one hexadecimal digit. -/
def hexVal (c : Char) : Nat :=
  if 48 ≤ c.toNat ∧ c.toNat ≤ 57 then c.toNat - 48
  else if 97 ≤ c.toNat ∧ c.toNat ≤ 102 then c.toNat - 87
  else c.toNat - 55

/-- Value of a base-`b` digit string (most significant first). -/
def digitsToNat (b : Nat) (dv : Char → Nat) (l : List Char) : Nat :=
  l.foldl (fun a c => a * b + dv c) 0

/-- The unsigned part of JavaScript `parseInt` with no radix argument:
a leading `0x`/`0X` switches to hexadecimal, otherwise the longest leading
run of decimal digits is taken; no digits at all gives `NaN` (`none`). -/
def parseUnsigned (r : List Char) : Option Nat :=
  match r with
  | '0' :: 'x' :: rest =>
    if (rest.takeWhile isHexDig) = [] then none
    else some (digitsToNat 16 hexVal (rest.takeWhile isHexDig))
  | '0' :: 'X' :: rest =>
    if (rest.takeWhile isHexDig) = [] then none
    else some (digitsToNat 16 hexVal (rest.takeWhile isHexDig))
  | _ =>
    if (r.takeWhile isDig) = [] then none
    else some (digitsToNat 10 (fun c => c.toNat - 48) (r.takeWhile isDig))

/-- Embedding of JavaScript `parseInt(x)` on an optional string
(MaternalMortalityChoropleth.jsx line 97, HealthFacilityComposition.jsx
line 41): skip leading whitespace, read an optional sign, then the digit
prefix; the result is `NaN` (`none`) when no digit is found.  A missing
field (`parseInt(undefined)`) coerces to the string `"undefined"`, which
has no digit prefix, hence also `none`. -/
def parseIntJS (o : Option (List Char)) : Option Int :=
  match o with
  | none => none
  | some s =>
    match s.dropWhile isWS with
    | '-' :: r => (parseUnsigned r).map (fun n => -(n : Int))
    | '+' :: r => (parseUnsigned r).map (fun n => (n : Int))
    | r => (parseUnsigned r).map (fun n => (n : Int))

example : parseIntJS (some ("3".toList)) = some 3 := by decide
example : parseIntJS (some (" -42xyz".toList)) = some (-42) := by decide
example : parseIntJS (some ("N/A".toList)) = none := by decide
example : parseIntJS none = none := by decide

/-! ## Row cleaning (choropleth page and facility page) -/

/-- One raw CSV row of the maternal-mortality dataset as handed over by the
CSV parser: a partial mapping from column name to string.  Fields the page
reads: `nama_kabupaten_kota`, `nama_provinsi`, `tahun`, `jumlah_kematian`. -/
structure RawRow where
  nama_kabupaten_kota : Option (List Char)
  nama_provinsi : Option (List Char)
  tahun : Option (List Char)
  jumlah_kematian : Option (List Char)
deriving DecidableEq, Repr

/-- One cleaned record of the choropleth page (the element type of
`cleaned`, MaternalMortalityChoropleth.jsx lines 90-107). -/
structure CRec where
  nama : List Char
  jumlah : Int
  tahun : List Char
  provinsi : List Char
deriving DecidableEq, Repr

/-- Embedding of the `.map` body and `.filter` predicate of
MaternalMortalityChoropleth.jsx lines 90-107 for one row: normalize the
region name, `parseInt` the death count, trim year and province, then keep
the row only when the province is exactly `"JAWA BARAT"`, the count parsed
(`!isNaN`), and name and year are truthy (present and nonempty). -/
def cleanRow (row : RawRow) : Option CRec :=
  match row.nama_kabupaten_kota, parseIntJS row.jumlah_kematian,
      row.tahun, row.nama_provinsi with
  | some s, some j, some t0, some p0 =>
    if trimL p0 = "JAWA BARAT".toList ∧ upperL (trimL (stripKab s)) ≠ [] ∧ trimL t0 ≠ [] then
      some { nama := upperL (trimL (stripKab s)), jumlah := j,
             tahun := trimL t0, provinsi := trimL p0 }
    else none
  | _, _, _, _ => none

/-- `data.map(...).filter(...)` over the whole CSV (same lines). -/
def cleanRows (rows : List RawRow) : List CRec := rows.filterMap cleanRow

/-- One raw CSV row of the health-facility dataset
(HealthFacilityComposition.jsx lines 36-43). -/
structure FRow where
  tahun : Option (List Char)
  nama_kabupaten_kota : Option (List Char)
  jenis_faskes : Option (List Char)
  jumlah_faskes : Option (List Char)
deriving DecidableEq, Repr

/-- One cleaned record of the facility page; its `filter` does not test the
year, so `tahun` stays optional. -/
structure FRec where
  tahun : Option (List Char)
  kota : List Char
  jenis : List Char
  jumlah : Int
deriving DecidableEq, Repr

/-- Embedding of HealthFacilityComposition.jsx lines 36-43: trim the three
string fields, `parseInt` the count, keep the row when city and facility
kind are truthy and the count parsed. -/
def cleanFRow (row : FRow) : Option FRec :=
  match row.nama_kabupaten_kota, row.jenis_faskes, parseIntJS row.jumlah_faskes with
  | some k0, some j0, some n =>
    if trimL k0 ≠ [] ∧ trimL j0 ≠ [] then
      some { tahun := row.tahun.map trimL, kota := trimL k0,
             jenis := trimL j0, jumlah := n }
    else none
  | _, _, _ => none

/-- The facility page's `.map(...).filter(...)` over the whole CSV. -/
def cleanFRows (rows : List FRow) : List FRec := rows.filterMap cleanFRow

/-! ## Aggregation (group by region key, sum the value) -/

/-- A JavaScript object used as a dictionary, embedded as an association
list in property-insertion order. -/
abbrev Dict := List (List Char × Int)

/-- Property read `obj[k]`: the first (and, as built here, only) binding. -/
def alookup : Dict → List Char → Option Int
  | [], _ => none
  | (k2, v) :: t, k => if k2 = k then some v else alookup t k

/-- Embedding of the reducer body of MaternalMortalityChoropleth.jsx lines
222-229: `if (!acc[id]) acc[id] = 0; acc[id] += value` — add to the
existing binding, or append a fresh binding at the end (a falsy existing
value `0` is reset to `0`, which leaves the sum unchanged). -/
def updAdd : Dict → List Char → Int → Dict
  | [], k, v => [(k, v)]
  | (k2, v2) :: t, k, v =>
    if k2 = k then (k2, v2 + v) :: t else (k2, v2) :: updAdd t k v

/-- One step of the aggregation fold. -/
def aggStep (acc : Dict) (r : CRec) : Dict := updAdd acc r.nama r.jumlah

/-- Embedding of lines 220-229: filter the cleaned records to the selected
year, then reduce into a dictionary summing `jumlah_kematian` per region
key.  Quantifying the year argument recovers the mapping on (key, period)
pairs. -/
def aggregateFor (y : List Char) (l : List CRec) : Dict :=
  (l.filter (fun r => r.tahun == y)).foldl aggStep []

/-- `Object.values(aggregatedData)` (line 241). -/
def valuesOf (agg : Dict) : List Int := agg.map (fun p => p.2)

/-- The sum of the `jumlah` fields of the records carrying key `k`:
the closed form of what one dictionary entry accumulates. -/
def sumFor (k : List Char) (l : List CRec) : Int :=
  ((l.filter (fun r => r.nama == k)).map (fun r => r.jumlah)).sum

/-- Does some record of `l` carry the key `k`? -/
def hasKeyB (k : List Char) (l : List CRec) : Bool :=
  l.any (fun r => r.nama == k)

example :
    alookup (aggregateFor ("2020".toList)
      [⟨"BANDUNG".toList, 10, "2020".toList, "JAWA BARAT".toList⟩,
       ⟨"BANDUNG".toList, 5, "2020".toList, "JAWA BARAT".toList⟩,
       ⟨"KOTA BANDUNG".toList, 7, "2020".toList, "JAWA BARAT".toList⟩])
      ("BANDUNG".toList) = some 15 := by decide

/-! ## Color scale (d3.scaleSequential over the aggregate values) -/

/-- `values.length > 0 ? Math.min(...values) : 0` (line 243). -/
def minVal (vs : List Int) : Int := (vs.min?).getD 0

/-- `values.length > 0 ? Math.max(...values) : 1` (line 242). -/
def maxVal (vs : List Int) : Int := (vs.max?).getD 1

/-- The scale domain of line 247: `[minVal, maxVal === 0 ? 1 : maxVal]`. -/
def domainOf (vs : List Int) : ℚ × ℚ :=
  ((minVal vs : ℚ), if maxVal vs = 0 then (1 : ℚ) else (maxVal vs : ℚ))

/-- Division with an explicit marker for the JavaScript `NaN`/`Infinity`
outcomes of a zero divisor. -/
def safeDiv (a b : ℚ) : Option ℚ := if b = 0 then none else some (a / b)

/-- The normalization slope of `d3.scaleSequential` (d3-scale, the external
library the page calls at lines 245-248): `k10 = t0 === t1 ? 0 : 1 / (t1 -
t0)` — the degenerate-domain test runs *before* the division. -/
def k10N (d : ℚ × ℚ) : Option ℚ :=
  if d.2 = d.1 then some 0 else safeDiv 1 (d.2 - d.1)

/-- The position in `[0,1]` that the sequential scale feeds to its
interpolator (`d3.interpolateReds`, injective on `[0,1]`): `k10 === 0 ?
0.5 : (x - t0) * k10`.  Two inputs receive the same color exactly when
they receive the same position. -/
def scalePosN (d : ℚ × ℚ) (x : ℚ) : Option ℚ :=
  (k10N d).map (fun k => if k = 0 then 1 / 2 else (x - d.1) * k)

example : scalePosN (domainOf [5, 5, 5]) 0 = some (1 / 2) := by
  simp [scalePosN, domainOf, k10N, safeDiv, minVal, maxVal]
example : scalePosN (domainOf []) 1 = some 1 := by
  simp [scalePosN, domainOf, k10N, safeDiv, minVal, maxVal]

/-! ## GeoJSON features and the spatial join -/

/-- The property bag of one polygon feature; the page reads only `KABKOT`,
everything else is opaque (`rest`). -/
structure GProps (π : Type) where
  KABKOT : Option (List Char)
  rest : π
deriving DecidableEq, Repr

/-- One polygon feature: an optional pre-existing `id`, an optional
property bag, and an opaque geometry. -/
structure Feature (γ π : Type) where
  id : Option (List Char)
  properties : Option (GProps π)
  geometry : γ
deriving DecidableEq, Repr

/-- Embedding of the `.map` callback of MaternalMortalityChoropleth.jsx
lines 131-142: when `properties.KABKOT` is truthy set `feature.id` to its
trimmed uppercase form, else when `feature.id` is truthy trim and uppercase
it, else leave the feature alone (only a console warning).  The callback
assigns `feature.id` on the *input* object and returns that same object,
so this function is simultaneously the element-wise description of the new
`features` array and of the caller's array after the call. -/
def processFeature {γ π : Type} (f : Feature γ π) : Feature γ π :=
  match f.properties with
  | some p =>
    match p.KABKOT with
    | some k =>
      if k ≠ [] then { f with id := some (upperL (trimL k)) }
      else match f.id with
        | some i => if i ≠ [] then { f with id := some (upperL (trimL i)) } else f
        | none => f
    | none =>
      match f.id with
      | some i => if i ≠ [] then { f with id := some (upperL (trimL i)) } else f
      | none => f
  | none =>
    match f.id with
    | some i => if i ≠ [] then { f with id := some (upperL (trimL i)) } else f
    | none => f

/-- `geoJsonObj.features.map(...)` of lines 129-144, read as the post-state
of the caller's feature objects (see `processFeature`). -/
def processFeatures {γ π : Type} (store : List (Feature γ π)) : List (Feature γ π) :=
  store.map processFeature

/-- The name the fill callback reads from a feature (line 263):
`d.properties?.KABKOT?.trim().toUpperCase()` — `undefined` when the
property chain breaks, the trimmed uppercased name otherwise (even when
empty). -/
def geoName {γ π : Type} (f : Feature γ π) : Option (List Char) :=
  match f.properties with
  | some p =>
    match p.KABKOT with
    | some k => some (upperL (trimL k))
    | none => none
  | none => none

/-- The string `"undefined"`: a JavaScript property access with an
`undefined` key coerces the key to this string. -/
def undefKey : List Char := ['u', 'n', 'd', 'e', 'f', 'i', 'n', 'e', 'd']

/-- The actual dictionary key used by `aggregatedData[kotaNameFromGeoJson]`
(line 264) given the optional name. -/
def lookupKeyOf (o : Option (List Char)) : List Char :=
  match o with
  | some k => k
  | none => undefKey

/-- The fill of one polygon: either a color on the sequential scale, or the
no-data sentinel `"#ccc"`. -/
inductive Fill where
  | colorOf (pos : Option ℚ)
  | grey
deriving DecidableEq, Repr

/-- Embedding of the fill callback of lines 261-268: look the feature's
name up in the aggregate; a hit is colored through the scale built over
the aggregate's values, a miss gets the sentinel `"#ccc"`. -/
def fillColor (agg : Dict) {γ π : Type} (f : Feature γ π) : Fill :=
  match alookup agg (lookupKeyOf (geoName f)) with
  | some v => Fill.colorOf (scalePosN (domainOf (valuesOf agg)) (v : ℚ))
  | none => Fill.grey

/-! ## Page load outcome (choropleth page) -/

/-- The decoded GeoJSON document: possibly missing its `features` array. -/
structure GeoDoc where
  features : Option (List (Feature Nat Nat))
deriving DecidableEq, Repr

/-- The page-level error recorded by the choropleth page's load effect. -/
inductive PageError where
  | geoInvalid
deriving DecidableEq, Repr

/-- The page state set by the load effect of MaternalMortalityChoropleth.jsx. -/
structure PageState where
  rawData : List CRec
  geoJsonData : Option (List (Feature Nat Nat))
  error : Option PageError
  isLoading : Bool
deriving DecidableEq, Repr

/-- Embedding of the successful-fetch path of lines 35-199 with a decoded
GeoJSON object (`none` embeds a `null` produced by a JSON parse failure)
and a successfully parsed CSV: an absent or empty `features` array (the
check of lines 49-64) records `PageError.geoInvalid` and nulls the GeoJSON
out, while the CSV is cleaned and stored either way and loading ends. -/
def loadSuccess (geo : Option GeoDoc) (rows : List RawRow) : PageState :=
  match geo with
  | some g =>
    match g.features with
    | some (f :: fs) =>
      { rawData := cleanRows rows,
        geoJsonData := some (processFeatures (f :: fs)),
        error := none, isLoading := false }
    | some [] =>
      { rawData := cleanRows rows, geoJsonData := none,
        error := some PageError.geoInvalid, isLoading := false }
    | none =>
      { rawData := cleanRows rows, geoJsonData := none,
        error := some PageError.geoInvalid, isLoading := false }
  | none =>
    { rawData := cleanRows rows, geoJsonData := none,
      error := some PageError.geoInvalid, isLoading := false }

/-- What the component returns. -/
inductive Render where
  | loading
  | errorView (e : PageError)
  | content
deriving DecidableEq, Repr

/-- Embedding of the render branches of lines 377-401: a loading screen,
else — whenever `error` is set — *only* the error screen, else the page
content (map, dropdown, aggregates). -/
def renderOf (st : PageState) : Render :=
  if st.isLoading then Render.loading
  else
    match st.error with
    | some e => Render.errorView e
    | none => Render.content

/-! ## Life-expectancy page average and region-type classification -/

/-- One parsed row of the life-expectancy page
(src/unnamed/part_002 and part_003, lines 21-30), after `parseFloat`
succeeded and the row passed the filter. -/
structure LRec where
  tahun : List Char
  daerah : List Char
  ahh : ℚ
  tipe : List Char
deriving DecidableEq, Repr

/-- `x || 0`: the JavaScript or-with-zero guard.  `none` embeds `NaN`
(falsy, replaced by `0`); a present `0` is falsy too and is replaced by
the same `0`. -/
def orZero (x : Option ℚ) : ℚ :=
  match x with
  | none => 0
  | some v => v

/-- Embedding of `filteredAll.reduce((a, c) => a + c.AHH, 0) /
filteredAll.length || 0` (part_002/part_003 lines 41-43).  The division is
`safeDiv`: its `none` marks the `0 / 0 = NaN` of an empty filter (a zero
divisor here forces a zero dividend, so the `Infinity` outcomes of
JavaScript division cannot arise). -/
def avgAHH (y : List Char) (rows : List LRec) : ℚ :=
  orZero (safeDiv
    (((rows.filter (fun r => r.tahun == y)).map (fun r => r.ahh)).foldl (· + ·) 0)
    ((rows.filter (fun r => r.tahun == y)).length : ℚ))

example : avgAHH ("2020".toList) [] = 0 := by decide

/-- Embedding of the region-type derivation
(ImmunizationCoverrage.jsx lines 46-48 and part_002/part_003 lines 26-28):
`row.nama_kabupaten_kota?.toLowerCase().includes("kota") ? "Kota" :
"Kabupaten"` — a missing name makes the condition `undefined`, hence
falsy, hence `"Kabupaten"`. -/
def tipe (nama : Option (List Char)) : List Char :=
  match nama with
  | none => "Kabupaten".toList
  | some s =>
    if (lowerL s).tails.any (fun t => ("kota".toList).isPrefixOf t) then
      "Kota".toList
    else "Kabupaten".toList

example : tipe (some ("KOTA BEKASI".toList)) = "Kota".toList := by decide
example : tipe (some ("KABUPATEN KOTABARU".toList)) = "Kota".toList := by decide
example : tipe none = "Kabupaten".toList := by decide

/-! ## Character-level lemmas -/

theorem toNat_ofNat_lt {n : Nat} (h : n < 55296) : (Char.ofNat n).toNat = n := by
  have hv : n.isValidChar := Or.inl h
  rw [Char.ofNat, dif_pos hv]
  rfl

theorem upChar_toNat (c : Char) :
    (upChar c).toNat = if 97 ≤ c.toNat ∧ c.toNat ≤ 122 then c.toNat - 32 else c.toNat := by
  unfold upChar
  split
  · next hc =>
    have hlt : c.toNat - 32 < 55296 := by
      have := c.val.toNat_lt
      omega
    rw [toNat_ofNat_lt hlt]
  · rfl

theorem upChar_toNat_ne_lower (c : Char) :
    ¬ (97 ≤ (upChar c).toNat ∧ (upChar c).toNat ≤ 122) := by
  rw [upChar_toNat]
  split <;> omega

theorem char_eq_of_toNat {a b : Char} (h : a.toNat = b.toNat) : a = b := by
  have h2 : Char.ofNat a.toNat = Char.ofNat b.toNat := by rw [h]
  rwa [Char.ofNat_toNat, Char.ofNat_toNat] at h2

theorem upChar_idem (c : Char) : upChar (upChar c) = upChar c := by
  apply char_eq_of_toNat
  rw [upChar_toNat (upChar c), if_neg (upChar_toNat_ne_lower c)]

theorem isWS_toNat (c : Char) :
    isWS c = true ↔ c.toNat = 32 ∨ c.toNat = 9 ∨ c.toNat = 13 ∨ c.toNat = 10 := by
  constructor
  · intro h
    simp only [isWS, Bool.or_eq_true, beq_iff_eq] at h
    rcases h with ((h | h) | h) | h <;> subst h <;> simp
  · intro h
    have hv : c = Char.ofNat c.toNat := (Char.ofNat_toNat c).symm
    simp only [isWS, Bool.or_eq_true, beq_iff_eq]
    rcases h with h | h | h | h <;> rw [hv, h] <;> simp

theorem isWS_upChar (c : Char) : isWS (upChar c) = isWS c := by
  by_cases hc : 97 ≤ c.toNat ∧ c.toNat ≤ 122
  · have h1 : (upChar c).toNat = c.toNat - 32 := by rw [upChar_toNat, if_pos hc]
    have h2 : isWS (upChar c) = false := by
      rw [← Bool.not_eq_true, isWS_toNat, h1]
      omega
    have h3 : isWS c = false := by
      rw [← Bool.not_eq_true, isWS_toNat]
      omega
    rw [h2, h3]
  · unfold upChar
    rw [if_neg hc]

theorem upChar_ne_u (c : Char) : upChar c ≠ 'u' := by
  intro h
  have := upChar_toNat_ne_lower c
  rw [h] at this
  exact this (by decide)

theorem lowChar_toNat (c : Char) :
    (lowChar c).toNat = if 65 ≤ c.toNat ∧ c.toNat ≤ 90 then c.toNat + 32 else c.toNat := by
  unfold lowChar
  split
  · next hc => exact toNat_ofNat_lt (by omega)
  · rfl

theorem eqCI_refl (c : Char) : eqCI c c = true := by
  simp [eqCI]

theorem eqCI_K_ws {c : Char} (h : isWS c = true) : eqCI 'K' c = false := by
  have hws := (isWS_toNat c).mp h
  simp only [eqCI, beq_eq_false_iff_ne, ne_eq]
  intro hEq
  have h1 : (lowChar 'K').toNat = (lowChar c).toNat := by rw [hEq]
  rw [lowChar_toNat, lowChar_toNat] at h1
  simp only [show ('K').toNat = 75 from rfl] at h1
  rw [if_pos (by omega)] at h1
  split at h1 <;> omega

/-! ## Trim lemmas -/

theorem rdropWhile_of_dropWhile_fix {m : List Char}
    (hm : m.rdropWhile isWS = m) :
    (m.dropWhile isWS).rdropWhile isWS = m.dropWhile isWS := by
  rw [List.rdropWhile_eq_self_iff]
  intro hl
  obtain ⟨t, ht⟩ := List.dropWhile_suffix (l := m) isWS
  have hm_ne : m ≠ [] := by
    intro h0
    apply hl
    rw [h0]
    rfl
  have hlast := List.rdropWhile_eq_self_iff.mp hm hm_ne
  have hq : (m.dropWhile isWS).getLast? = m.getLast? := by
    conv_rhs => rw [← ht]
    rw [List.getLast?_append_of_ne_nil _ hl]
  rw [List.getLast?_eq_getLast _ hl, List.getLast?_eq_getLast _ hm_ne] at hq
  rw [Option.some_inj.mp hq]
  exact hlast

theorem trimL_idem (l : List Char) : trimL (trimL l) = trimL l := by
  unfold trimL
  rw [rdropWhile_of_dropWhile_fix (List.rdropWhile_idempotent isWS l),
    List.dropWhile_idempotent]

theorem trimL_eq_nil_of_all_ws {l : List Char} (h : ∀ c ∈ l, isWS c = true) :
    trimL l = [] := by
  unfold trimL
  rw [List.rdropWhile_eq_nil_iff.mpr h]
  rfl

theorem dropWhile_upperL (l : List Char) :
    (upperL l).dropWhile isWS = upperL (l.dropWhile isWS) := by
  induction l with
  | nil => rfl
  | cons c cs ih =>
    simp only [upperL, List.map_cons, List.dropWhile_cons, isWS_upChar]
    cases h : isWS c
    · simp
    · simpa [upperL] using ih

theorem rdropWhile_upperL (l : List Char) :
    (upperL l).rdropWhile isWS = upperL (l.rdropWhile isWS) := by
  unfold List.rdropWhile
  have h1 : (upperL l).reverse = upperL l.reverse := by
    simp [upperL, List.map_reverse]
  rw [h1, dropWhile_upperL]
  simp [upperL, List.map_reverse]

theorem trimL_upperL (l : List Char) : trimL (upperL l) = upperL (trimL l) := by
  unfold trimL
  rw [rdropWhile_upperL, dropWhile_upperL]

theorem upperL_idem (l : List Char) : upperL (upperL l) = upperL l := by
  induction l with
  | nil => rfl
  | cons c cs ih =>
    simp only [upperL, List.map_cons, upChar_idem, List.cons.injEq, true_and]
    simpa [upperL] using ih

/-! ## stripKab lemmas -/

theorem stripKabGo_nil (n : Nat) : stripKabGo n [] = [] := by
  cases n <;> rfl

theorem stripKabGo_congr :
    ∀ n m (l : List Char), l.length ≤ n → l.length ≤ m →
      stripKabGo n l = stripKabGo m l := by
  intro n
  induction n with
  | zero =>
    intro m l h1 _
    have h0 : l = [] := List.length_eq_zero.mp (Nat.le_zero.mp h1)
    rw [h0, stripKabGo_nil, stripKabGo_nil]
  | succ n ih =>
    intro m l h1 h2
    cases l with
    | nil => rw [stripKabGo_nil, stripKabGo_nil]
    | cons c cs =>
      cases m with
      | zero => simp at h2
      | succ m =>
        show (if ciStarts kabPat (c :: cs) then
            stripKabGo n ((c :: cs).drop kabPat.length)
          else c :: stripKabGo n cs)
          = (if ciStarts kabPat (c :: cs) then
            stripKabGo m ((c :: cs).drop kabPat.length)
          else c :: stripKabGo m cs)
        simp only [List.length_cons] at h1 h2
        have hk : kabPat.length = 10 := rfl
        by_cases hb : ciStarts kabPat (c :: cs)
        · rw [if_pos hb, if_pos hb]
          apply ih
          · simp only [List.length_drop, List.length_cons, hk]
            omega
          · simp only [List.length_drop, List.length_cons, hk]
            omega
        · rw [if_neg hb, if_neg hb]
          have := ih m cs (by omega) (by omega)
          rw [this]

theorem stripKabGo_eq_stripKab {n : Nat} {l : List Char} (h : l.length ≤ n) :
    stripKabGo n l = stripKab l :=
  stripKabGo_congr n l.length l h (Nat.le_refl _)

theorem stripKab_cons (c : Char) (cs : List Char) :
    stripKab (c :: cs) =
      if ciStarts kabPat (c :: cs) then stripKab ((c :: cs).drop kabPat.length)
      else c :: stripKab cs := by
  have h0 : stripKab (c :: cs)
      = (if ciStarts kabPat (c :: cs) then
          stripKabGo cs.length ((c :: cs).drop kabPat.length)
        else c :: stripKabGo cs.length cs) := rfl
  rw [h0]
  have hk : kabPat.length = 10 := rfl
  by_cases hb : ciStarts kabPat (c :: cs)
  · rw [if_pos hb, if_pos hb, stripKabGo_eq_stripKab]
    simp only [List.length_drop, List.length_cons, hk]
    omega
  · rw [if_neg hb, if_neg hb, stripKabGo_eq_stripKab (Nat.le_refl _)]

theorem ciStarts_append_self (p t : List Char) : ciStarts p (p ++ t) = true := by
  induction p with
  | nil => rfl
  | cons c cs ih =>
    simp only [List.cons_append, ciStarts, eqCI_refl, Bool.true_and]
    exact ih

theorem stripKab_kabPat_append (t : List Char) :
    stripKab (kabPat ++ t) = stripKab t := by
  have hb := ciStarts_append_self kabPat t
  have hd : (kabPat ++ t).drop kabPat.length = t := List.drop_left kabPat t
  have hcons : kabPat ++ t
      = 'K' :: (['A', 'B', 'U', 'P', 'A', 'T', 'E', 'N', ' '] ++ t) := rfl
  rw [hcons, stripKab_cons, ← hcons, if_pos hb, hd]

theorem hasTokCI_cons (p : List Char) (c : Char) (cs : List Char) :
    hasTokCI p (c :: cs) = (ciStarts p (c :: cs) || hasTokCI p cs) := by
  simp [hasTokCI, List.tails_cons]

theorem stripKab_of_not_tok {l : List Char} (h : hasTokCI kabPat l = false) :
    stripKab l = l := by
  induction l with
  | nil => rfl
  | cons c cs ih =>
    rw [hasTokCI_cons] at h
    simp only [Bool.or_eq_false_iff] at h
    rw [stripKab_cons, if_neg (by simp [h.1]), ih h.2]

theorem ciStarts_kabPat_ws {c : Char} (cs : List Char) (hc : isWS c = true) :
    ciStarts kabPat (c :: cs) = false := by
  show (eqCI 'K' c && ciStarts (['A', 'B', 'U', 'P', 'A', 'T', 'E', 'N', ' ']) cs)
      = false
  rw [eqCI_K_ws hc]
  rfl

theorem stripKab_of_all_ws {l : List Char} (h : ∀ c ∈ l, isWS c = true) :
    stripKab l = l := by
  induction l with
  | nil => rfl
  | cons c cs ih =>
    have hc : isWS c = true := h c (by simp)
    rw [stripKab_cons, if_neg (by simp [ciStarts_kabPat_ws cs hc]),
      ih (fun d hd => h d (by simp [hd]))]

/-! ## Claim C1 — the normalization contract -/

/-- Claim C1, counterexample.  The claim says `normalizeKey` strips both
`KABUPATEN`-style and `KOTA`-style prefixes and that the *same*
normalization is applied to the polygon feature's name.  At the concrete
inputs below the code keeps the `KOTA ` prefix, and the polygon-side key
(`processFeature`, which only trims and uppercases `KABKOT`) differs from
the tabular-side key for the very same raw name. -/
theorem C1_counterexample :
    normalizeKey (some ("KOTA BANDUNG".toList)) = some ("KOTA BANDUNG".toList)
    ∧ ("KOTA BANDUNG".toList) ≠ ("BANDUNG".toList)
    ∧ (processFeature
        (⟨none, some ⟨some ("KABUPATEN BANDUNG".toList), 0⟩, 0⟩ : Feature Nat Nat)).id
      = some ("KABUPATEN BANDUNG".toList)
    ∧ normalizeKey (some ("KABUPATEN BANDUNG".toList)) = some ("BANDUNG".toList) := by
  refine ⟨by decide, by decide, by decide, by decide⟩

/-- Claim C1, amended.  `normalizeKey` returns `none` for missing and for
whitespace-only input; it removes the single token `"KABUPATEN "`
case-insensitively (a leading occurrence is deleted, and deletion
continues through the rest of the string); a name containing no
`"KABUPATEN "` token — in particular any `KOTA `-prefixed name — is
returned just trimmed and uppercased, and on exactly those names the
polygon-side key (trim + uppercase of `KABKOT`, no prefix removal)
coincides with the tabular-side key. -/
theorem C1_normalizeKey_contract :
    normalizeKey none = none
    ∧ (∀ s : List Char, (∀ c ∈ s, isWS c = true) → normalizeKey (some s) = none)
    ∧ (∀ t : List Char, normalizeKey (some (kabPat ++ t)) = normalizeKey (some t))
    ∧ (∀ (s : List Char) (g : Nat), hasTokCI kabPat s = false → trimL s ≠ [] →
        (processFeature (⟨none, some ⟨some s, 0⟩, g⟩ : Feature Nat Nat)).id
        = normalizeKey (some s)) := by
  refine ⟨rfl, ?_, ?_, ?_⟩
  · intro s h
    simp [normalizeKey, stripKab_of_all_ws h, trimL_eq_nil_of_all_ws h, upperL]
  · intro t
    simp [normalizeKey, stripKab_kabPat_append]
  · intro s g h hne
    have hs_ne : s ≠ [] := by
      intro h0
      apply hne
      rw [h0]
      rfl
    have hu_ne : upperL (trimL s) ≠ [] := by
      simp [upperL, hne]
    simp only [processFeature, if_pos hs_ne]
    rw [normalizeKey, stripKab_of_not_tok h, if_neg hu_ne]

/-- Claim C1, witness: the amended contract applied at whitespace-only
input, at a `KABUPATEN `-prefixed name, and at a `KOTA `-prefixed name
(where tabular and polygon keys agree because nothing is stripped). -/
theorem C1_witness :
    normalizeKey (some ("  ".toList)) = none
    ∧ normalizeKey (some (kabPat ++ ("BOGOR".toList)))
      = normalizeKey (some ("BOGOR".toList))
    ∧ (processFeature
        (⟨none, some ⟨some ("KOTA DEPOK".toList), 0⟩, 0⟩ : Feature Nat Nat)).id
      = normalizeKey (some ("KOTA DEPOK".toList)) :=
  ⟨C1_normalizeKey_contract.2.1 _ (by decide),
   C1_normalizeKey_contract.2.2.1 _,
   C1_normalizeKey_contract.2.2.2 _ 0 (by decide) (by decide)⟩

/-! ## Claim C2 — idempotence of the normalization -/

/-- Claim C2, counterexample.  The single left-to-right deletion pass of
`/KABUPATEN /gi` can splice a *new* `"KABUPATEN "` occurrence together:
normalizing `"KAKABUPATEN BUPATEN X"` yields `"KABUPATEN X"`, and
normalizing that again yields `"X"` — so `normalizeKey` is not idempotent. -/
theorem C2_counterexample :
    normalizeKey (normalizeKey (some ("KAKABUPATEN BUPATEN X".toList)))
      ≠ normalizeKey (some ("KAKABUPATEN BUPATEN X".toList)) := by
  decide

/-- Claim C2, amended.  `normalizeKey` is idempotent on every input whose
normalized form contains no residual case-insensitive `"KABUPATEN "`
token (deletion spliced nothing new together) — in particular on all of
the observed region names — and trivially on inputs normalizing to
`none`. -/
theorem C2_idempotent_on_stable (o : Option (List Char)) :
    (normalizeKey o = none → normalizeKey (normalizeKey o) = normalizeKey o)
    ∧ (∀ k : List Char, normalizeKey o = some k → hasTokCI kabPat k = false →
        normalizeKey (normalizeKey o) = normalizeKey o) := by
  constructor
  · intro h
    rw [h]
    rfl
  · intro k hk htok
    rw [hk]
    cases o with
    | none => simp [normalizeKey] at hk
    | some s =>
      rw [normalizeKey] at hk
      by_cases hnil : upperL (trimL (stripKab s)) = []
      · rw [if_pos hnil] at hk
        exact absurd hk (by simp)
      · rw [if_neg hnil] at hk
        have hkeq : k = upperL (trimL (stripKab s)) := (Option.some_inj.mp hk).symm
        have h1 : stripKab k = k := stripKab_of_not_tok htok
        have h2 : trimL k = k := by
          rw [hkeq, trimL_upperL, trimL_idem]
        have h3 : upperL k = k := by
          rw [hkeq, upperL_idem]
        rw [normalizeKey, h1, h2, h3, if_neg (hkeq ▸ hnil)]

/-- Claim C2, witness: idempotence at the stable input `"KOTA BANDUNG"`. -/
theorem C2_witness :
    normalizeKey (some ("KOTA BANDUNG".toList)) = some ("KOTA BANDUNG".toList)
    ∧ hasTokCI kabPat ("KOTA BANDUNG".toList) = false
    ∧ normalizeKey (normalizeKey (some ("KOTA BANDUNG".toList)))
      = normalizeKey (some ("KOTA BANDUNG".toList)) :=
  ⟨by decide, by decide,
   (C2_idempotent_on_stable (some ("KOTA BANDUNG".toList))).2
     ("KOTA BANDUNG".toList) (by decide) (by decide)⟩

/-! ## Claim C3 — totality of the color scale -/

/-- Claim C3, counterexample.  For the degenerate value set `[0, 0, 0]`
(minimum equals maximum) the code's `maxVal === 0 ? 1 : maxVal` guard
substitutes the domain `[0, 1]`, so the constructed scale is well-defined
but *not* constant: inputs `0` and `1` receive different colors. -/
theorem C3_counterexample :
    minVal [0, 0, 0] = maxVal [0, 0, 0]
    ∧ scalePosN (domainOf [0, 0, 0]) 0 ≠ scalePosN (domainOf [0, 0, 0]) 1 := by
  constructor
  · decide
  · have hmin : minVal [0, 0, 0] = 0 := by decide
    have hmax : maxVal [0, 0, 0] = 0 := by decide
    have hd : domainOf [0, 0, 0] = ((0 : ℚ), (1 : ℚ)) := by
      unfold domainOf
      rw [hmin, hmax]
      norm_num
    rw [hd]
    simp [scalePosN, k10N, safeDiv]

/-- Claim C3, amended.  The scale position is always defined (the
degenerate-domain test of d3 runs before its division, and `safeDiv` is
only reached with a nonzero divisor), and for every nonempty value set
whose minimum equals its *nonzero* maximum every input is mapped to the
same midpoint color.  For the empty set and for min = max = 0 the code
substitutes the default domain `[0, 1]`, so the scale is defined there but
not constant (see the counterexample). -/
theorem C3_scale_total (vs : List Int) (x y : ℚ) :
    (∃ p : ℚ, scalePosN (domainOf vs) x = some p)
    ∧ (minVal vs = maxVal vs → maxVal vs ≠ 0 →
        scalePosN (domainOf vs) x = scalePosN (domainOf vs) y) := by
  constructor
  · unfold scalePosN k10N safeDiv
    by_cases h : (domainOf vs).2 = (domainOf vs).1
    · rw [if_pos h]
      exact ⟨_, rfl⟩
    · rw [if_neg h, if_neg (sub_ne_zero_of_ne h)]
      exact ⟨_, rfl⟩
  · intro h1 h2
    have hd : (domainOf vs).2 = (domainOf vs).1 := by
      unfold domainOf
      rw [if_neg h2]
      show (maxVal vs : ℚ) = (minVal vs : ℚ)
      exact_mod_cast h1.symm
    unfold scalePosN k10N
    rw [if_pos hd]
    simp

/-- Claim C3, witness: on the degenerate value set `[5, 5, 5]` of the
claim, the scale gives inputs `0` and `7` the same defined color. -/
theorem C3_witness :
    minVal [5, 5, 5] = maxVal [5, 5, 5] ∧ maxVal [5, 5, 5] ≠ 0
    ∧ scalePosN (domainOf [5, 5, 5]) 0 = scalePosN (domainOf [5, 5, 5]) 7 :=
  ⟨by decide, by decide, (C3_scale_total [5, 5, 5] 0 7).2 (by decide) (by decide)⟩

/-! ## Claim C6 — the GeoJSON preprocessing mutates its input -/

/-- Claim C6, counterexample.  The callback of lines 131-142 assigns
`feature.id` on the input object itself, so after the call the caller's
feature array is `processFeatures` of its old value — which differs from
the old value: here the feature's `id` changes from `none` to the
computed key `"BANDUNG"`. -/
theorem C6_counterexample :
    processFeatures [(⟨none, some ⟨some ("bandung".toList), 0⟩, 0⟩ : Feature Nat Nat)]
      ≠ [(⟨none, some ⟨some ("bandung".toList), 0⟩, 0⟩ : Feature Nat Nat)] := by
  decide

/-- Claim C6, amended.  The preprocessing does mutate the caller's
features — it overwrites each feature's `id` in place — but it touches
nothing else: `properties` (hence the name-bearing field) and `geometry`
of every feature are left exactly as they were. -/
theorem C6_processFeature_frame {γ π : Type} (f : Feature γ π) :
    (processFeature f).properties = f.properties
    ∧ (processFeature f).geometry = f.geometry := by
  unfold processFeature
  rcases f with ⟨i, p, g⟩
  rcases p with _ | ⟨k, r⟩
  · rcases i with _ | iv
    · exact ⟨rfl, rfl⟩
    · dsimp only
      split
      · exact ⟨rfl, rfl⟩
      · exact ⟨rfl, rfl⟩
  · rcases k with _ | kv
    · rcases i with _ | iv
      · exact ⟨rfl, rfl⟩
      · dsimp only
        split
        · exact ⟨rfl, rfl⟩
        · exact ⟨rfl, rfl⟩
    · dsimp only
      split
      · exact ⟨rfl, rfl⟩
      · rcases i with _ | iv
        · exact ⟨rfl, rfl⟩
        · dsimp only
          split
          · exact ⟨rfl, rfl⟩
          · exact ⟨rfl, rfl⟩

/-! ## Claim C9 — life-expectancy average on an empty year -/

/-- Claim C9.  When no parsed row matches the selected year, the raw
division of the reduced sum by the filtered length is the JavaScript
`NaN` (`none` in this embedding), and the `|| 0` guard turns the computed
province-wide average into `0` — a defined number, as is everything
derived from it. -/
theorem C9_avg_empty_zero (rows : List LRec) (y : List Char)
    (h : rows.filter (fun r => r.tahun == y) = []) :
    safeDiv (((rows.filter (fun r => r.tahun == y)).map (fun r => r.ahh)).foldl (· + ·) 0)
        ((rows.filter (fun r => r.tahun == y)).length : ℚ) = none
    ∧ avgAHH y rows = 0 := by
  constructor
  · rw [h]
    simp [safeDiv]
  · unfold avgAHH
    rw [h]
    simp [safeDiv, orZero]

/-- Claim C9, witness: a nonempty data set with no row for the selected
year 2020 produces the average `0`, not `NaN`. -/
theorem C9_witness :
    ([(⟨"2019".toList, "BOGOR".toList, 70, "Kabupaten".toList⟩ : LRec)].filter
        (fun r => r.tahun == ("2020".toList))) = []
    ∧ avgAHH ("2020".toList)
        [(⟨"2019".toList, "BOGOR".toList, 70, "Kabupaten".toList⟩ : LRec)] = 0 :=
  ⟨by decide,
   (C9_avg_empty_zero [(⟨"2019".toList, "BOGOR".toList, 70, "Kabupaten".toList⟩ : LRec)]
     ("2020".toList) (by decide)).2⟩

/-! ## Claim C10 — region-type classification by substring -/

/-- Claim C10.  The derived region type is `"Kota"` exactly when the
lowercased name contains the substring `"kota"` anywhere (so a regency
whose name merely embeds `"kota"` is classified as a city), and a missing
name yields `"Kabupaten"`; every name without that substring yields
`"Kabupaten"`. -/
theorem C10_tipe_classification :
    (∀ s : List Char, tipe (some s) = "Kota".toList ↔ ("kota".toList) <:+: lowerL s)
    ∧ tipe none = "Kabupaten".toList
    ∧ (∀ s : List Char, ¬ ("kota".toList) <:+: lowerL s →
        tipe (some s) = "Kabupaten".toList) := by
  have hbridge : ∀ n l : List Char,
      (l.tails.any fun t => n.isPrefixOf t) = true ↔ n <:+: l := by
    intro n l
    rw [List.any_eq_true]
    constructor
    · rintro ⟨t, ht, hp⟩
      rw [List.mem_tails t l] at ht
      simp only [ List.isPrefixOf_iff_prefix] at hp
      exact List.infix_iff_prefix_suffix.mpr ⟨t, hp, ht⟩
    · intro hi
      obtain ⟨t, hp, ht⟩ := List.infix_iff_prefix_suffix.mp hi
      refine ⟨t, (List.mem_tails t l).mpr ht, ?_⟩
      simpa using hp
  refine ⟨?_, rfl, ?_⟩
  · intro s
    simp only [tipe]
    constructor
    · intro h
      by_contra hno
      rw [if_neg (fun hc => hno ((hbridge _ _).mp hc))] at h
      exact absurd h (by decide)
    · intro hi
      rw [if_pos ((hbridge _ _).mpr hi)]
  · intro s hno
    simp only [tipe]
    rw [if_neg (fun hc => hno ((hbridge _ _).mp hc))]

/-- Claim C10, witness: the regency name `"KABUPATEN KOTABARU"` embeds
`"kota"`, so it is classified `"Kota"`; the theorem applied at that
concrete name agrees with direct evaluation. -/
theorem C10_witness :
    tipe (some ("KABUPATEN KOTABARU".toList)) = "Kota".toList :=
  (C10_tipe_classification.1 ("KABUPATEN KOTABARU".toList)).mpr (by decide)

/-! ## Aggregation lemmas -/

theorem alookup_updAdd (acc : Dict) (k k2 : List Char) (v : Int) :
    alookup (updAdd acc k v) k2
      = if k2 = k then some ((alookup acc k).getD 0 + v) else alookup acc k2 := by
  induction acc with
  | nil =>
    by_cases h : k2 = k
    · simp [updAdd, alookup, h]
    · simp [updAdd, alookup, h, Ne.symm h]
  | cons p t ih =>
    obtain ⟨k0, v0⟩ := p
    by_cases h0 : k0 = k <;> by_cases h2 : k2 = k <;> by_cases h3 : k0 = k2 <;>
      simp_all [updAdd, alookup]

theorem alookup_foldl_aggStep (l : List CRec) :
    ∀ (acc : Dict) (k : List Char),
      alookup (l.foldl aggStep acc) k
        = (alookup acc k).elim
            (if hasKeyB k l then some (sumFor k l) else none)
            (fun v => some (v + sumFor k l)) := by
  induction l with
  | nil =>
    intro acc k
    cases hacc : alookup acc k <;> simp [hacc, sumFor, hasKeyB]
  | cons r t ih =>
    intro acc k
    rw [List.foldl_cons, ih (aggStep acc r) k]
    have hupd : alookup (aggStep acc r) k
        = if k = r.nama then some ((alookup acc r.nama).getD 0 + r.jumlah)
          else alookup acc k := alookup_updAdd acc r.nama k r.jumlah
    by_cases hk : k = r.nama
    · subst hk
      rw [hupd, if_pos rfl]
      have hs : sumFor r.nama (r :: t) = r.jumlah + sumFor r.nama t := by
        simp [sumFor, List.filter_cons]
      have hh : hasKeyB r.nama (r :: t) = true := by
        simp [hasKeyB]
      rw [hs, hh]
      cases hacc : alookup acc r.nama
      · simp
      · simp [add_assoc]
    · rw [hupd, if_neg hk]
      have hs : sumFor k (r :: t) = sumFor k t := by
        simp [sumFor, List.filter_cons, Ne.symm hk]
      have hh : hasKeyB k (r :: t) = hasKeyB k t := by
        simp [hasKeyB, Ne.symm hk]
      rw [hs, hh]

theorem alookup_aggregateFor (y : List Char) (l : List CRec) (k : List Char) :
    alookup (aggregateFor y l) k
      = if hasKeyB k (l.filter (fun r => r.tahun == y))
        then some (sumFor k (l.filter (fun r => r.tahun == y))) else none := by
  unfold aggregateFor
  rw [alookup_foldl_aggStep]
  rfl

theorem any_perm {α : Type} (p : α → Bool) {l l2 : List α} (h : l.Perm l2) :
    l.any p = l2.any p := by
  have hiff : l.any p = true ↔ l2.any p = true := by
    simp only [List.any_eq_true]
    constructor
    · rintro ⟨x, hx, hp⟩
      exact ⟨x, h.mem_iff.mp hx, hp⟩
    · rintro ⟨x, hx, hp⟩
      exact ⟨x, h.mem_iff.mpr hx, hp⟩
  cases ha : l.any p <;> cases hb : l2.any p <;> simp_all

/-! ## Claim C4 — order-invariance of the aggregation -/

/-- Claim C4.  Aggregation (filter to the selected period, then group by
the cleaned region key and sum the values) is invariant under permutation
of the input records: the resulting dictionary, read as a mapping through
`alookup`, is identical, for every period and key.  The empty input gives
the empty dictionary, and the fold is a total function — it cannot fail. -/
theorem C4_aggregate_perm (y : List Char) :
    aggregateFor y [] = []
    ∧ ∀ (l l2 : List CRec), l.Perm l2 →
        ∀ k, alookup (aggregateFor y l) k = alookup (aggregateFor y l2) k := by
  refine ⟨rfl, ?_⟩
  intro l l2 hp k
  rw [alookup_aggregateFor, alookup_aggregateFor]
  have hperm := hp.filter (fun r => r.tahun == y)
  have h1 : hasKeyB k (l.filter (fun r => r.tahun == y))
      = hasKeyB k (l2.filter (fun r => r.tahun == y)) :=
    any_perm _ hperm
  have h2 : sumFor k (l.filter (fun r => r.tahun == y))
      = sumFor k (l2.filter (fun r => r.tahun == y)) := by
    unfold sumFor
    exact ((hperm.filter _).map _).sum_eq
  rw [h1, h2]

/-- Claim C4, witness: swapping two concrete cleaned records leaves the
aggregated mapping unchanged at the key `"BANDUNG"`. -/
theorem C4_witness :
    alookup (aggregateFor ("2020".toList)
      [⟨"BANDUNG".toList, 10, "2020".toList, "JAWA BARAT".toList⟩,
       ⟨"BOGOR".toList, 5, "2020".toList, "JAWA BARAT".toList⟩]) ("BANDUNG".toList)
    = alookup (aggregateFor ("2020".toList)
      [⟨"BOGOR".toList, 5, "2020".toList, "JAWA BARAT".toList⟩,
       ⟨"BANDUNG".toList, 10, "2020".toList, "JAWA BARAT".toList⟩]) ("BANDUNG".toList) :=
  (C4_aggregate_perm ("2020".toList)).2
    [⟨"BANDUNG".toList, 10, "2020".toList, "JAWA BARAT".toList⟩,
     ⟨"BOGOR".toList, 5, "2020".toList, "JAWA BARAT".toList⟩]
    [⟨"BOGOR".toList, 5, "2020".toList, "JAWA BARAT".toList⟩,
     ⟨"BANDUNG".toList, 10, "2020".toList, "JAWA BARAT".toList⟩]
    (by decide) ("BANDUNG".toList)

/-! ## Claim C7 — rows failing numeric parsing are dropped -/

/-- Claim C7.  A row whose value field fails `parseInt` (such as `"N/A"`)
contributes nothing: deleting it from the raw input leaves the cleaned
record list — and hence every aggregate — unchanged, on both the
choropleth page and the facility page; the cleaning is a total function,
so the bad row raises no pipeline-level error and every other row is
still aggregated. -/
theorem C7_parse_failure_dropped :
    (∀ (pre post : List RawRow) (r : RawRow),
        parseIntJS r.jumlah_kematian = none →
        cleanRows (pre ++ r :: post) = cleanRows (pre ++ post)
        ∧ ∀ (y k : List Char),
          alookup (aggregateFor y (cleanRows (pre ++ r :: post))) k
            = alookup (aggregateFor y (cleanRows (pre ++ post))) k)
    ∧ (∀ (pre post : List FRow) (r : FRow),
        parseIntJS r.jumlah_faskes = none →
        cleanFRows (pre ++ r :: post) = cleanFRows (pre ++ post)) := by
  constructor
  · intro pre post r h
    have hr : cleanRow r = none := by
      unfold cleanRow
      rw [h]
      rcases row1 : r.nama_kabupaten_kota with _ | s <;>
        rcases row2 : r.tahun with _ | t0 <;>
        rcases row3 : r.nama_provinsi with _ | p0 <;> rfl
    have hmain : cleanRows (pre ++ r :: post) = cleanRows (pre ++ post) := by
      unfold cleanRows
      rw [List.filterMap_append, List.filterMap_append, List.filterMap_cons, hr]
    exact ⟨hmain, fun y k => by rw [hmain]⟩
  · intro pre post r h
    have hr : cleanFRow r = none := by
      unfold cleanFRow
      rw [h]
      rcases row1 : r.nama_kabupaten_kota with _ | k0 <;>
        rcases row2 : r.jenis_faskes with _ | j0 <;> rfl
    unfold cleanFRows
    rw [List.filterMap_append, List.filterMap_append, List.filterMap_cons, hr]

/-- Claim C7, witness: a concrete row with value `"N/A"` is dropped and
the cleaned list equals the one without it. -/
theorem C7_witness :
    parseIntJS (some ("N/A".toList)) = none
    ∧ cleanRows
        [⟨some ("KOTA DEPOK".toList), some ("JAWA BARAT".toList),
          some ("2020".toList), some ("N/A".toList)⟩,
         ⟨some ("KABUPATEN BOGOR".toList), some ("JAWA BARAT".toList),
          some ("2020".toList), some ("3".toList)⟩]
      = cleanRows
        [⟨some ("KABUPATEN BOGOR".toList), some ("JAWA BARAT".toList),
          some ("2020".toList), some ("3".toList)⟩] :=
  ⟨by decide,
   (C7_parse_failure_dropped.1 []
     [⟨some ("KABUPATEN BOGOR".toList), some ("JAWA BARAT".toList),
       some ("2020".toList), some ("3".toList)⟩]
     ⟨some ("KOTA DEPOK".toList), some ("JAWA BARAT".toList),
       some ("2020".toList), some ("N/A".toList)⟩ (by decide)).1⟩

/-! ## Claim C5 — the join fabricates no values -/

theorem cleanRow_nama {row : RawRow} {r : CRec} (h : cleanRow row = some r) :
    r.nama ≠ [] ∧ ∃ s : List Char, r.nama = upperL s := by
  unfold cleanRow at h
  rcases hm : row.nama_kabupaten_kota with _ | s <;> rw [hm] at h
  · simp at h
  · rcases hj : parseIntJS row.jumlah_kematian with _ | j <;> rw [hj] at h
    · simp at h
    · rcases ht : row.tahun with _ | t0 <;> rw [ht] at h
      · simp at h
      · rcases hp : row.nama_provinsi with _ | p0 <;> rw [hp] at h
        · simp at h
        · dsimp only at h
          split at h
          · next hc =>
            obtain ⟨hc1, hc2, hc3⟩ := hc
            obtain hrec := Option.some_inj.mp h
            refine ⟨?_, trimL (stripKab s), ?_⟩
            · rw [← hrec]
              exact hc2
            · rw [← hrec]
          · exact absurd h (by simp)

theorem agg_key_of_lookup {rows : List RawRow} {y k : List Char} {v : Int}
    (h : alookup (aggregateFor y (cleanRows rows)) k = some v) :
    k ≠ [] ∧ ∃ s : List Char, k = upperL s := by
  rw [alookup_aggregateFor] at h
  by_cases hk : hasKeyB k ((cleanRows rows).filter (fun r => r.tahun == y))
  · obtain ⟨r, hrmem, hbeq⟩ := List.any_eq_true.mp hk
    have hnm : r.nama = k := by simpa using hbeq
    have hr2 : r ∈ cleanRows rows := (List.mem_filter.mp hrmem).1
    obtain ⟨row, _, hcr⟩ := List.mem_filterMap.mp hr2
    obtain ⟨h1, s, h2⟩ := cleanRow_nama hcr
    rw [hnm] at h1 h2
    exact ⟨h1, s, h2⟩
  · rw [if_neg hk] at h
    exact absurd h (by simp)

theorem upperL_ne_undefKey (s : List Char) : upperL s ≠ undefKey := by
  cases s with
  | nil => simp [upperL, undefKey]
  | cons c cs =>
    intro h
    have h2 : (upperL (c :: cs)).head? = undefKey.head? := by rw [h]
    have h3 : upChar c = 'u' := by
      simpa [upperL, undefKey] using h2
    exact upChar_ne_u c h3

/-- Claim C5.  Against the aggregate actually built by the pipeline
(cleaned rows, grouped and summed), the fill of every polygon feature
either carries exactly the sum recorded under the feature's lookup key —
colored through the scale — or is the distinct no-data sentinel; a miss
is never painted as a zero value.  A feature whose `KABKOT` property is
missing looks up the coerced key `"undefined"`, and one whose property is
empty looks up `""`; neither can be a key of the aggregate (all its keys
are nonempty uppercased names), so both are always "no data", whatever
the aggregate contains. -/
theorem C5_join_no_fabrication (rows : List RawRow) (y : List Char)
    (f : Feature Nat Nat) :
    (∀ v : Int,
        alookup (aggregateFor y (cleanRows rows)) (lookupKeyOf (geoName f)) = some v →
        fillColor (aggregateFor y (cleanRows rows)) f
          = Fill.colorOf (scalePosN
              (domainOf (valuesOf (aggregateFor y (cleanRows rows)))) (v : ℚ)))
    ∧ (alookup (aggregateFor y (cleanRows rows)) (lookupKeyOf (geoName f)) = none →
        fillColor (aggregateFor y (cleanRows rows)) f = Fill.grey)
    ∧ (geoName f = none →
        fillColor (aggregateFor y (cleanRows rows)) f = Fill.grey)
    ∧ (geoName f = some [] →
        fillColor (aggregateFor y (cleanRows rows)) f = Fill.grey) := by
  refine ⟨?_, ?_, ?_, ?_⟩
  · intro v hv
    unfold fillColor
    rw [hv]
  · intro hv
    unfold fillColor
    rw [hv]
  · intro hg
    have hnone : alookup (aggregateFor y (cleanRows rows)) undefKey = none := by
      cases hl : alookup (aggregateFor y (cleanRows rows)) undefKey with
      | none => rfl
      | some v =>
        obtain ⟨_, s, hs⟩ := agg_key_of_lookup hl
        exact absurd hs.symm (upperL_ne_undefKey s)
    unfold fillColor
    rw [hg, show lookupKeyOf none = undefKey from rfl, hnone]
  · intro hg
    have hnone : alookup (aggregateFor y (cleanRows rows)) [] = none := by
      cases hl : alookup (aggregateFor y (cleanRows rows)) [] with
      | none => rfl
      | some v =>
        obtain ⟨h1, _⟩ := agg_key_of_lookup hl
        exact absurd rfl h1
    unfold fillColor
    rw [hg, show lookupKeyOf (some []) = [] from rfl, hnone]

/-- Claim C5, witness: a feature with no `properties` bag is "no data"
even against a nonempty aggregate. -/
theorem C5_witness :
    geoName (⟨none, none, 0⟩ : Feature Nat Nat) = none
    ∧ fillColor
        (aggregateFor ("2020".toList) (cleanRows
          [⟨some ("KABUPATEN BOGOR".toList), some ("JAWA BARAT".toList),
            some ("2020".toList), some ("3".toList)⟩]))
        (⟨none, none, 0⟩ : Feature Nat Nat) = Fill.grey :=
  ⟨rfl,
   (C5_join_no_fabrication
     [⟨some ("KABUPATEN BOGOR".toList), some ("JAWA BARAT".toList),
       some ("2020".toList), some ("3".toList)⟩]
     ("2020".toList) (⟨none, none, 0⟩ : Feature Nat Nat)).2.2.1 rfl⟩

/-! ## Claim C8 — malformed GeoJSON blocks the whole page -/

/-- Claim C8, evaluation at the failing input.  With a decoded GeoJSON
object whose `features` array is empty and a perfectly good CSV row, the
load path does keep cleaning the CSV (the aggregate for 2020 still maps
`"BOGOR"` to `3`) and skips the join — but it records the condition in
the page-level `error` state, and the render branch then returns *only*
the error screen: the page content with the tabular aggregates is never
rendered, contradicting the claimed soft-warning degradation.  The
warning text itself promises that only the map feature will be missing,
so the blocking render contradicts the code's own message. -/
theorem C8_malformed_geojson_blocks_page :
    (loadSuccess (some ⟨some []⟩)
        [⟨some ("KABUPATEN BOGOR".toList), some ("JAWA BARAT".toList),
          some ("2020".toList), some ("3".toList)⟩]).error = some PageError.geoInvalid
    ∧ (loadSuccess (some ⟨some []⟩)
        [⟨some ("KABUPATEN BOGOR".toList), some ("JAWA BARAT".toList),
          some ("2020".toList), some ("3".toList)⟩]).geoJsonData = none
    ∧ alookup (aggregateFor ("2020".toList)
        (loadSuccess (some ⟨some []⟩)
          [⟨some ("KABUPATEN BOGOR".toList), some ("JAWA BARAT".toList),
            some ("2020".toList), some ("3".toList)⟩]).rawData) ("BOGOR".toList)
      = some 3
    ∧ renderOf (loadSuccess (some ⟨some []⟩)
        [⟨some ("KABUPATEN BOGOR".toList), some ("JAWA BARAT".toList),
          some ("2020".toList), some ("3".toList)⟩])
      = Render.errorView PageError.geoInvalid
    ∧ renderOf (loadSuccess (some ⟨some []⟩)
        [⟨some ("KABUPATEN BOGOR".toList), some ("JAWA BARAT".toList),
          some ("2020".toList), some ("3".toList)⟩])
      ≠ Render.content := by
  refine ⟨by decide, by decide, by decide, by decide, by decide⟩

end Dashboard
